import Mathlib

/-!
Verification development for the `notion-mcp-server` installation tooling
(`scripts/install.cjs` and the verification script `verify.cjs`).

The scripts are single-shot Node.js programs.  We embed the pieces of state
they manipulate — JSON documents, a flat file system mapping paths to file
contents, subprocess outcomes — as explicit Lean data, and embed each
relevant method (`configureClaudeDesktop`, `configureClaudeCodeCLI`,
`checkSystemDependencies`, `loadConfig`, the exit-code logic of `install()`
and `verify()`) as a pure function from that state (plus the outcomes of the
external calls the method makes) to its result state.

External collaborators (the `JSON.parse` / `JSON.stringify` builtins,
`execSync`, `fs` calls) are modelled at their call sites: file contents are
stored already classified as parseable-to-a-JSON-value or unparseable, and
every subprocess outcome is a parameter of the embedding.
-/

namespace NotionMcp

/-- A JSON value, as produced by `JSON.parse`.  Objects are association
lists in property order; `JSON.parse` never produces duplicate keys. -/
inductive Json where
  | null
  | bool (b : Bool)
  | num (n : Int)
  | str (s : String)
  | arr (elems : List Json)
  | obj (fields : List (String × Json))

/-- The content of a file on disk: either bytes that `JSON.parse` accepts,
yielding the value `j`, or bytes that make `JSON.parse` throw.  Copying a
file (`fs.copyFileSync`) copies this content unchanged, so equality of
`Content` values models byte-for-byte equality of the underlying files. -/
inductive Content where
  | parsed (j : Json)
  | invalid (raw : String)

/-- A flat file system: each path is absent or holds a content. -/
def FS : Type := String → Option Content

/-- `fs.writeFileSync p c` / `fs.copyFileSync _ p`: overwrite path `p`. -/
def writeStr (fs : FS) (p : String) (c : Content) : FS :=
  fun q => if q = p then some c else fs q

/-- JavaScript property read `o[k]` on an object with fields `kvs`
(`undefined`, i.e. an absent property, is `none`). -/
def getKey : List (String × Json) → String → Option Json
  | [], _ => none
  | (k', v') :: rest, k => if k' = k then some v' else getKey rest k

/-- JavaScript property write `o[k] = v` on an object with fields `kvs`:
an existing property is updated in place, a new property is appended
(JS property-insertion order, which `JSON.stringify` follows). -/
def setKey : List (String × Json) → String → Json → List (String × Json)
  | [], k, v => [(k, v)]
  | (k', v') :: rest, k, v =>
      if k' = k then (k, v) :: rest else (k', v') :: setKey rest k v

/-- JavaScript falsiness of a JSON value (`!x` is `true` exactly on these;
arrays and objects are always truthy). -/
def jsFalsy : Json → Bool
  | Json.null => true
  | Json.bool b => !b
  | Json.num n => n == 0
  | Json.str s => s == ""
  | Json.arr _ => false
  | Json.obj _ => false

/-- The `ServerEntry` the installer writes, from `install.cjs` lines
203-209: command `node`, the CLI binary path as the single argument, and a
`NOTION_TOKEN` environment entry. -/
def notionEntry (cliBinaryPath token : String) : Json :=
  Json.obj [("command", Json.str "node"),
            ("args", Json.arr [Json.str cliBinaryPath]),
            ("env", Json.obj [("NOTION_TOKEN", Json.str token)])]

/-- The fresh base document `claudeConfig = ... mcpServers: ... ` of
`install.cjs` lines 182 and 198: a single `mcpServers` key holding an empty
object. -/
def emptyBase : List (String × Json) := [("mcpServers", Json.obj [])]

/-- Lines 188-190 of `install.cjs`: `if (!claudeConfig.mcpServers)
claudeConfig.mcpServers = ...` — when the `mcpServers` property is absent
or falsy it is replaced by an empty object, otherwise kept. -/
def ensureMcpServers (kvs : List (String × Json)) : List (String × Json) :=
  match getKey kvs "mcpServers" with
  | none => setKey kvs "mcpServers" (Json.obj [])
  | some v => if jsFalsy v then setKey kvs "mcpServers" (Json.obj []) else kvs

/-- Line 203 of `install.cjs`,
`claudeConfig.mcpServers["notion-mcp"] = entry`, as reflected in the
document `JSON.stringify` then serialises.  After `ensureMcpServers` the
`mcpServers` property is never absent or falsy.  When it is an object the
entry is set.  When it is a truthy non-object the serialised document is
unchanged: on a primitive the sloppy-mode property assignment is a silent
no-op, and on an array the assignment creates a string-keyed property that
`JSON.stringify` omits from array serialisation. -/
def mcpMutate (base : List (String × Json)) (entry : Json) :
    List (String × Json) :=
  match getKey base "mcpServers" with
  | some (Json.obj entries) =>
      setKey base "mcpServers" (Json.obj (setKey entries "notion-mcp" entry))
  | _ => base

/-- Result of `configureClaudeDesktop`: the file system after the call,
whether the catch block at lines 196-199 ran (it logs the warning
`Could not parse existing config, creating new one`), and whether an
exception escaped the method (the only way: the `TypeError` thrown at line
203 when the parsed document is a truthy primitive, which line 203 sits
outside every try block of the method). -/
structure DesktopResult where
  fs : FS
  warnedParse : Bool
  fatal : Bool

/-- `NotionMcpInstaller.configureClaudeDesktop` (`install.cjs` lines
169-218), for a target file `configPath`, with `Date.now()` returning
`now`.  `notionToken` is `this.config.notionToken` (`none` when unset);
line 207 applies `|| ""` to it.  `copyOk` is the outcome of the
`fs.copyFileSync` backup call at line 194 when it is reached: when it
throws, control lands in the same catch block as a parse failure, which
discards the parsed document and proceeds from the fresh base.  The final
`fs.writeFileSync` at line 213 is modelled as succeeding.  Branches:
* path absent (line 185 `existsSync` false): write the fresh document, no
  warning;
* unparseable content: the `JSON.parse` at line 187 throws, the catch runs,
  the fresh document is written, no backup;
* content parses to `null`: line 188 reads `claudeConfig.mcpServers` on
  `null`, which throws a `TypeError` inside the same try, so this follows
  the catch path exactly like a parse failure — no backup;
* content parses to an object: `mcpServers` is ensured, the original file
  is copied to `configPath + ".backup." + now`, and the mutated document
  is written (or, when the copy throws, the catch path runs instead);
* content parses to an array: line 189 sets `mcpServers` as a string-keyed
  property on the array (arrays are objects, so this succeeds), the backup
  is made, and `JSON.stringify` at line 213 serialises the array without
  its string-keyed properties, so the written bytes are the original array;
* content parses to a truthy primitive (number, string, `true`): line 189
  is a silent sloppy-mode no-op, the backup is made, then line 203 reads
  `claudeConfig.mcpServers` as `undefined` and throws a `TypeError` outside
  every try of the method — no write to `configPath` happens. -/
def configureClaudeDesktop (fs : FS) (configPath : String) (now : Nat)
    (cliBinaryPath : String) (notionToken : Option String) (copyOk : Bool) :
    DesktopResult :=
  let entry := notionEntry cliBinaryPath (notionToken.getD "")
  let backupPath := configPath ++ ".backup." ++ toString now
  let freshFs := writeStr fs configPath
      (Content.parsed (Json.obj (mcpMutate emptyBase entry)))
  match fs configPath with
  | none => ⟨freshFs, false, false⟩
  | some (Content.invalid _) => ⟨freshFs, true, false⟩
  | some (Content.parsed Json.null) => ⟨freshFs, true, false⟩
  | some (Content.parsed (Json.obj kvs)) =>
      if copyOk then
        ⟨writeStr (writeStr fs backupPath (Content.parsed (Json.obj kvs)))
            configPath
            (Content.parsed (Json.obj (mcpMutate (ensureMcpServers kvs) entry))),
          false, false⟩
      else ⟨freshFs, true, false⟩
  | some (Content.parsed (Json.arr xs)) =>
      if copyOk then
        ⟨writeStr (writeStr fs backupPath (Content.parsed (Json.arr xs)))
            configPath (Content.parsed (Json.arr xs)),
          false, false⟩
      else ⟨freshFs, true, false⟩
  | some (Content.parsed j) =>
      if copyOk then ⟨writeStr fs backupPath (Content.parsed j), false, true⟩
      else ⟨freshFs, true, false⟩

/-- Whether the `mcpServers` property of a document is a well-formed
server map in the sense of the specified `HostConfiguration` data model:
absent, or a JSON object. -/
def validMcpVal : Option Json → Bool
  | none => true
  | some (Json.obj _) => true
  | some _ => false

/-- The entries of the `mcpServers` map of a document (empty when the
property is absent or not an object). -/
def mcpEntries (kvs : List (String × Json)) : List (String × Json) :=
  match getKey kvs "mcpServers" with
  | some (Json.obj es) => es
  | _ => []

/-- The desired `ServerEntry` of an install run: `notionEntry` applied to
the CLI binary path and `this.config.notionToken || ""` (line 207). -/
def desktopEntry (cliBinaryPath : String) (notionToken : Option String) :
    Json :=
  notionEntry cliBinaryPath (notionToken.getD "")

/-- The document written on the parsed-object path of
`configureClaudeDesktop`: ensure `mcpServers`, then set the entry. -/
def desktopWritten (kvs : List (String × Json)) (e : Json) :
    List (String × Json) :=
  mcpMutate (ensureMcpServers kvs) e

theorem getKey_setKey_self (kvs : List (String × Json)) (k : String)
    (v : Json) : getKey (setKey kvs k v) k = some v := by
  induction kvs with
  | nil => simp [setKey, getKey]
  | cons hd tl ih =>
      obtain ⟨k', v'⟩ := hd
      by_cases hk : k' = k
      · simp [setKey, hk, getKey]
      · simp [setKey, hk, getKey, ih]

theorem getKey_setKey_ne (kvs : List (String × Json)) (k : String)
    (v : Json) (k' : String) (h : k' ≠ k) :
    getKey (setKey kvs k v) k' = getKey kvs k' := by
  induction kvs with
  | nil => simp [setKey, getKey, Ne.symm h]
  | cons hd tl ih =>
      obtain ⟨k₀, v₀⟩ := hd
      by_cases hk : k₀ = k
      · subst hk
        have hne : ¬ k₀ = k' := fun he => h he.symm
        simp [setKey, getKey, hne]
      · simp only [setKey, if_neg hk, getKey]
        by_cases hk' : k₀ = k'
        · simp [hk']
        · simp [hk', ih]

theorem writeStr_self (fs : FS) (p : String) (c : Content) :
    writeStr fs p c p = some c := by
  simp [writeStr]

theorem writeStr_ne (fs : FS) (p : String) (c : Content) (q : String)
    (h : q ≠ p) : writeStr fs p c q = fs q := by
  simp [writeStr, h]

theorem backupPath_ne_configPath (p : String) (n : Nat) :
    p ++ ".backup." ++ toString n ≠ p := by
  intro he
  have hl := congrArg String.length he
  rw [String.length_append, String.length_append] at hl
  have h8 : (".backup." : String).length = 8 := rfl
  rw [h8] at hl
  omega

theorem backupPath_injective (p a b : String) (h : a ≠ b) :
    p ++ ".backup." ++ a ≠ p ++ ".backup." ++ b := by
  intro he
  apply h
  have hd := congrArg String.data he
  simp only [String.data_append] at hd
  exact String.ext (List.append_cancel_left hd)

/-- Key fact about the document written on the valid-object path: its
`mcpServers` property is the original server map with the `notion-mcp`
entry set. -/
theorem written_mcpServers (kvs : List (String × Json)) (e : Json)
    (hv : validMcpVal (getKey kvs "mcpServers") = true) :
    getKey (desktopWritten kvs e) "mcpServers"
      = some (Json.obj (setKey (mcpEntries kvs) "notion-mcp" e)) := by
  cases hg : getKey kvs "mcpServers" with
  | none =>
      simp [desktopWritten, ensureMcpServers.eq_def, hg, mcpMutate.eq_def,
        mcpEntries.eq_def, getKey_setKey_self]
  | some v =>
      rw [hg] at hv
      cases v with
      | obj es =>
          simp [desktopWritten, ensureMcpServers.eq_def, hg, jsFalsy,
            mcpMutate.eq_def, mcpEntries.eq_def, getKey_setKey_self]
      | null => simp [validMcpVal.eq_def] at hv
      | bool b => simp [validMcpVal.eq_def] at hv
      | num n => simp [validMcpVal.eq_def] at hv
      | str s => simp [validMcpVal.eq_def] at hv
      | arr xs => simp [validMcpVal.eq_def] at hv

/-- Frame fact: keys other than `mcpServers` of the written document are
those of the original document. -/
theorem written_frame (kvs : List (String × Json)) (e : Json) (k : String)
    (hk : k ≠ "mcpServers") :
    getKey (desktopWritten kvs e) k = getKey kvs k := by
  rw [desktopWritten]
  have hens : getKey (ensureMcpServers kvs) k = getKey kvs k := by
    cases hg : getKey kvs "mcpServers" with
    | none => simp [ensureMcpServers.eq_def, hg, getKey_setKey_ne _ _ _ _ hk]
    | some v =>
        cases hf : jsFalsy v <;>
          simp [ensureMcpServers.eq_def, hg, hf, getKey_setKey_ne _ _ _ _ hk]
  cases hg : getKey (ensureMcpServers kvs) "mcpServers" with
  | none => simp [mcpMutate.eq_def, hg, hens]
  | some v =>
      cases v <;>
        simp [mcpMutate.eq_def, hg, hens, getKey_setKey_ne _ _ _ _ hk]

theorem mcpEntries_written (kvs : List (String × Json)) (e : Json)
    (hv : validMcpVal (getKey kvs "mcpServers") = true) :
    mcpEntries (desktopWritten kvs e)
      = setKey (mcpEntries kvs) "notion-mcp" e := by
  simp [mcpEntries.eq_def, written_mcpServers kvs e hv]

/-- After the valid-object path, the written document is itself a valid
configuration document. -/
theorem written_valid (kvs : List (String × Json)) (e : Json)
    (hv : validMcpVal (getKey kvs "mcpServers") = true) :
    validMcpVal (getKey (desktopWritten kvs e) "mcpServers") = true := by
  simp [written_mcpServers kvs e hv, validMcpVal]

/-- Evaluation of `configureClaudeDesktop` on the path where the target
file holds a document parsing to an object and the backup copy succeeds. -/
theorem desktop_run_obj (fs : FS) (p : String) (now : Nat) (cli : String)
    (tok : Option String) (kvs : List (String × Json))
    (h : fs p = some (Content.parsed (Json.obj kvs))) :
    configureClaudeDesktop fs p now cli tok true =
      ⟨writeStr (writeStr fs (p ++ ".backup." ++ toString now)
          (Content.parsed (Json.obj kvs))) p
          (Content.parsed (Json.obj (desktopWritten kvs (desktopEntry cli tok)))),
        false, false⟩ := by
  simp [configureClaudeDesktop, h, desktopWritten, desktopEntry]

/-- Evaluation of `configureClaudeDesktop` when the target file holds
unparseable content: fresh-start path, for either backup outcome. -/
theorem desktop_run_invalid (fs : FS) (p : String) (now : Nat)
    (cli : String) (tok : Option String) (raw : String) (copyOk : Bool)
    (h : fs p = some (Content.invalid raw)) :
    configureClaudeDesktop fs p now cli tok copyOk =
      ⟨writeStr fs p
          (Content.parsed (Json.obj (mcpMutate emptyBase (desktopEntry cli tok)))),
        true, false⟩ := by
  simp [configureClaudeDesktop, h, desktopEntry]

/-- Evaluation of `configureClaudeDesktop` when the target file holds a
document parsing to an object but the backup copy throws: the catch path
runs, discarding the parsed document. -/
theorem desktop_run_obj_nocopy (fs : FS) (p : String) (now : Nat)
    (cli : String) (tok : Option String) (kvs : List (String × Json))
    (h : fs p = some (Content.parsed (Json.obj kvs))) :
    configureClaudeDesktop fs p now cli tok false =
      ⟨writeStr fs p
          (Content.parsed (Json.obj (mcpMutate emptyBase (desktopEntry cli tok)))),
        true, false⟩ := by
  simp [configureClaudeDesktop, h, desktopEntry]

/-- The fresh-start document is exactly one `mcpServers` key holding
exactly the `notion-mcp` entry. -/
theorem freshDoc_eq (e : Json) :
    mcpMutate emptyBase e = [("mcpServers", Json.obj [("notion-mcp", e)])] :=
  rfl

/-- C1 (claim): for every valid pre-existing configuration document at the
target path, `configureClaudeDesktop` writes a document whose top-level
keys other than `mcpServers` are unchanged in value, whose `mcpServers`
entries other than `notion-mcp` are unchanged in value, and whose
`notion-mcp` entry is the desired entry. -/
theorem C1_desktop_reconcile_frame (fs : FS) (configPath : String)
    (now : Nat) (cliBinaryPath : String) (notionToken : Option String)
    (kvs : List (String × Json))
    (h : fs configPath = some (Content.parsed (Json.obj kvs)))
    (hv : validMcpVal (getKey kvs "mcpServers") = true) :
    (configureClaudeDesktop fs configPath now cliBinaryPath notionToken
        true).fs configPath
      = some (Content.parsed (Json.obj
          (desktopWritten kvs (desktopEntry cliBinaryPath notionToken)))) ∧
    (∀ k, k ≠ "mcpServers" →
      getKey (desktopWritten kvs (desktopEntry cliBinaryPath notionToken)) k
        = getKey kvs k) ∧
    (∀ sn, sn ≠ "notion-mcp" →
      getKey (mcpEntries
          (desktopWritten kvs (desktopEntry cliBinaryPath notionToken))) sn
        = getKey (mcpEntries kvs) sn) ∧
    getKey (mcpEntries
        (desktopWritten kvs (desktopEntry cliBinaryPath notionToken)))
        "notion-mcp"
      = some (desktopEntry cliBinaryPath notionToken) := by
  refine ⟨?_, ?_, ?_, ?_⟩
  · rw [desktop_run_obj fs configPath now cliBinaryPath notionToken kvs h]
    exact writeStr_self _ _ _
  · intro k hk
    exact written_frame kvs _ k hk
  · intro sn hsn
    rw [mcpEntries_written kvs _ hv]
    exact getKey_setKey_ne _ _ _ _ hsn
  · rw [mcpEntries_written kvs _ hv]
    exact getKey_setKey_self _ _ _

/-- A concrete configuration document with an unrelated top-level key and
an unrelated server entry, used by the witnesses. -/
def exampleDoc : List (String × Json) :=
  [("theme", Json.str "dark"),
   ("mcpServers", Json.obj [("other", Json.str "x")])]

/-- A file system whose only file is a desktop configuration holding
`exampleDoc`. -/
def exampleFS : FS :=
  fun q => if q = "/cfg" then some (Content.parsed (Json.obj exampleDoc))
           else none

/-- Witness for C1 at the concrete document `exampleDoc`. -/
theorem C1_desktop_reconcile_frame_witness :
    exampleFS "/cfg" = some (Content.parsed (Json.obj exampleDoc)) ∧
    validMcpVal (getKey exampleDoc "mcpServers") = true ∧
    (configureClaudeDesktop exampleFS "/cfg" 5 "/cli.mjs" (some "tkn")
        true).fs "/cfg"
      = some (Content.parsed (Json.obj
          (desktopWritten exampleDoc (desktopEntry "/cli.mjs" (some "tkn"))))) ∧
    getKey (desktopWritten exampleDoc (desktopEntry "/cli.mjs" (some "tkn")))
        "theme" = getKey exampleDoc "theme" ∧
    getKey (mcpEntries (desktopWritten exampleDoc
        (desktopEntry "/cli.mjs" (some "tkn")))) "other"
      = getKey (mcpEntries exampleDoc) "other" ∧
    getKey (mcpEntries (desktopWritten exampleDoc
        (desktopEntry "/cli.mjs" (some "tkn")))) "notion-mcp"
      = some (desktopEntry "/cli.mjs" (some "tkn")) := by
  have T := C1_desktop_reconcile_frame exampleFS "/cfg" 5 "/cli.mjs"
    (some "tkn") exampleDoc rfl rfl
  exact ⟨rfl, rfl, T.1, T.2.1 "theme" (by decide),
    T.2.2.1 "other" (by decide), T.2.2.2⟩

/-- C2 (amended): when the target path holds valid parseable JSON whose
parse result is anything but `null`, and the backup copy succeeds, a
backup file at the original path plus `.backup.` plus the millisecond
timestamp exists afterwards, and its content is byte-for-byte the
pre-call content of the target path.  This covers objects (backup, then
rewrite), arrays (backup, then the array is rewritten unchanged) and
truthy or falsy non-null primitives (backup at line 194, after which line
203 throws, so the target is never rewritten — the backup still exists
with the original content).  Only a file parsing to `null` skips the
backup copy. -/
theorem C2_backup_on_nonnull_parse (fs : FS) (configPath : String)
    (now : Nat) (cliBinaryPath : String) (notionToken : Option String)
    (j : Json)
    (h : fs configPath = some (Content.parsed j)) (hj : j ≠ Json.null) :
    (configureClaudeDesktop fs configPath now cliBinaryPath notionToken
        true).fs (configPath ++ ".backup." ++ toString now)
      = fs configPath ∧
    (configureClaudeDesktop fs configPath now cliBinaryPath notionToken
        true).fs (configPath ++ ".backup." ++ toString now)
      = some (Content.parsed j) := by
  have hb := backupPath_ne_configPath configPath now
  cases j with
  | null => exact absurd rfl hj
  | obj kvs =>
      rw [desktop_run_obj fs configPath now cliBinaryPath notionToken kvs h]
      constructor
      · show writeStr _ configPath _ _ = _
        rw [writeStr_ne _ _ _ _ hb, writeStr_self, h]
      · show writeStr _ configPath _ _ = _
        rw [writeStr_ne _ _ _ _ hb, writeStr_self]
  | arr xs =>
      have hr : configureClaudeDesktop fs configPath now cliBinaryPath
          notionToken true =
          ⟨writeStr (writeStr fs (configPath ++ ".backup." ++ toString now)
              (Content.parsed (Json.arr xs))) configPath
              (Content.parsed (Json.arr xs)), false, false⟩ := by
        simp [configureClaudeDesktop, h]
      rw [hr]
      constructor
      · show writeStr _ configPath _ _ = _
        rw [writeStr_ne _ _ _ _ hb, writeStr_self, h]
      · show writeStr _ configPath _ _ = _
        rw [writeStr_ne _ _ _ _ hb, writeStr_self]
  | bool b =>
      have hr : configureClaudeDesktop fs configPath now cliBinaryPath
          notionToken true =
          ⟨writeStr fs (configPath ++ ".backup." ++ toString now)
              (Content.parsed (Json.bool b)), false, true⟩ := by
        simp [configureClaudeDesktop, h]
      rw [hr]
      constructor
      · show writeStr _ _ _ _ = _
        rw [writeStr_self, h]
      · show writeStr _ _ _ _ = _
        rw [writeStr_self]
  | num n =>
      have hr : configureClaudeDesktop fs configPath now cliBinaryPath
          notionToken true =
          ⟨writeStr fs (configPath ++ ".backup." ++ toString now)
              (Content.parsed (Json.num n)), false, true⟩ := by
        simp [configureClaudeDesktop, h]
      rw [hr]
      constructor
      · show writeStr _ _ _ _ = _
        rw [writeStr_self, h]
      · show writeStr _ _ _ _ = _
        rw [writeStr_self]
  | str s =>
      have hr : configureClaudeDesktop fs configPath now cliBinaryPath
          notionToken true =
          ⟨writeStr fs (configPath ++ ".backup." ++ toString now)
              (Content.parsed (Json.str s)), false, true⟩ := by
        simp [configureClaudeDesktop, h]
      rw [hr]
      constructor
      · show writeStr _ _ _ _ = _
        rw [writeStr_self, h]
      · show writeStr _ _ _ _ = _
        rw [writeStr_self]

/-- A file system whose only file contains valid JSON parsing to an
array. -/
def arrFS : FS :=
  fun q => if q = "/cfg" then some (Content.parsed (Json.arr [Json.num 1]))
           else none

/-- Witness for C2 (amended), at the concrete document `exampleDoc` (an
object) and also at a file parsing to an array. -/
theorem C2_backup_on_nonnull_parse_witness :
    exampleFS "/cfg" = some (Content.parsed (Json.obj exampleDoc)) ∧
    (configureClaudeDesktop exampleFS "/cfg" 7 "/cli.mjs" none true).fs
        ("/cfg" ++ ".backup." ++ toString 7)
      = exampleFS "/cfg" ∧
    arrFS "/cfg" = some (Content.parsed (Json.arr [Json.num 1])) ∧
    (configureClaudeDesktop arrFS "/cfg" 8 "/cli.mjs" none true).fs
        ("/cfg" ++ ".backup." ++ toString 8)
      = arrFS "/cfg" := by
  have T1 := C2_backup_on_nonnull_parse exampleFS "/cfg" 7 "/cli.mjs"
    none (Json.obj exampleDoc) rfl (fun he => nomatch he)
  have T2 := C2_backup_on_nonnull_parse arrFS "/cfg" 8 "/cli.mjs"
    none (Json.arr [Json.num 1]) rfl (fun he => nomatch he)
  exact ⟨rfl, T1.1, rfl, T2.1⟩

/-- A file system whose only file contains the bytes `null`: valid
parseable JSON whose parse result is the JavaScript value `null`. -/
def nullFS : FS :=
  fun q => if q = "/cfg" then some (Content.parsed Json.null) else none

/-- C2 (counterexample): the claim says a backup is created whenever the
target path contains valid parseable JSON.  A file containing `null` is
valid parseable JSON, but `claudeConfig.mcpServers` on the parsed `null`
throws inside the try block before the backup copy, so the catch path runs:
no backup file is created (the backup path is still absent afterwards) and
the failure is logged as the could-not-parse warning. -/
theorem C2_counterexample_null_file :
    nullFS "/cfg" = some (Content.parsed Json.null) ∧
    (configureClaudeDesktop nullFS "/cfg" 171 "/cli.mjs" none true).fs
        ("/cfg" ++ ".backup." ++ toString 171) = none ∧
    (configureClaudeDesktop nullFS "/cfg" 171 "/cli.mjs" none
        true).warnedParse = true := by
  refine ⟨rfl, ?_, rfl⟩
  rfl

/-- C3 (claim): on a target file with invalid JSON, the reconciliation
raises no uncaught fault, surfaces the parse failure as a warning, writes
exactly the document with a single `mcpServers` key holding only the
`notion-mcp` entry, and touches no other path (in particular it creates no
backup file). -/
theorem C3_invalid_config_fresh_start (fs : FS) (configPath : String)
    (now : Nat) (cliBinaryPath : String) (notionToken : Option String)
    (raw : String) (copyOk : Bool)
    (h : fs configPath = some (Content.invalid raw)) :
    (configureClaudeDesktop fs configPath now cliBinaryPath notionToken
        copyOk).fatal = false ∧
    (configureClaudeDesktop fs configPath now cliBinaryPath notionToken
        copyOk).warnedParse = true ∧
    (configureClaudeDesktop fs configPath now cliBinaryPath notionToken
        copyOk).fs configPath
      = some (Content.parsed (Json.obj
          [("mcpServers", Json.obj
            [("notion-mcp", desktopEntry cliBinaryPath notionToken)])])) ∧
    (∀ q, q ≠ configPath →
      (configureClaudeDesktop fs configPath now cliBinaryPath notionToken
          copyOk).fs q = fs q) := by
  rw [desktop_run_invalid fs configPath now cliBinaryPath notionToken raw
    copyOk h]
  refine ⟨rfl, rfl, ?_, ?_⟩
  · rw [freshDoc_eq]
    exact writeStr_self _ _ _
  · intro q hq
    exact writeStr_ne _ _ _ _ hq

/-- A file system whose only file holds unparseable bytes. -/
def invalidFS : FS :=
  fun q => if q = "/cfg" then some (Content.invalid "not json") else none

/-- Witness for C3 at a concrete unparseable file. -/
theorem C3_invalid_config_fresh_start_witness :
    invalidFS "/cfg" = some (Content.invalid "not json") ∧
    (configureClaudeDesktop invalidFS "/cfg" 9 "/cli.mjs" none true).fatal
      = false ∧
    (configureClaudeDesktop invalidFS "/cfg" 9 "/cli.mjs" none
        true).warnedParse = true ∧
    (configureClaudeDesktop invalidFS "/cfg" 9 "/cli.mjs" none true).fs
        "/cfg"
      = some (Content.parsed (Json.obj
          [("mcpServers", Json.obj
            [("notion-mcp", desktopEntry "/cli.mjs" none)])])) ∧
    (configureClaudeDesktop invalidFS "/cfg" 9 "/cli.mjs" none true).fs
        ("/cfg" ++ ".backup." ++ toString 9)
      = invalidFS ("/cfg" ++ ".backup." ++ toString 9) := by
  have T := C3_invalid_config_fresh_start invalidFS "/cfg" 9 "/cli.mjs"
    none "not json" true rfl
  exact ⟨rfl, T.1, T.2.1, T.2.2.1,
    T.2.2.2 ("/cfg" ++ ".backup." ++ toString 9) (by decide)⟩

/-- C4 (claim): running the reconciliation twice in succession with the
same desired entry, starting from a valid pre-existing configuration, is
idempotent with respect to the `notion-mcp` entry of the final document —
the second call produces the same final entry as the first — and each of
the two calls produces its own backup file: after the second call the
first backup holds the original content and the second backup holds the
content the first call wrote. -/
theorem C4_twice_idempotent_two_backups (fs : FS) (p : String)
    (t1 t2 : Nat) (cli : String) (tok : Option String)
    (kvs : List (String × Json))
    (h : fs p = some (Content.parsed (Json.obj kvs)))
    (hv : validMcpVal (getKey kvs "mcpServers") = true)
    (hne : toString t1 ≠ toString t2) :
    (configureClaudeDesktop fs p t1 cli tok true).fs p
      = some (Content.parsed (Json.obj
          (desktopWritten kvs (desktopEntry cli tok)))) ∧
    (configureClaudeDesktop (configureClaudeDesktop fs p t1 cli tok
        true).fs p t2 cli tok true).fs p
      = some (Content.parsed (Json.obj
          (desktopWritten (desktopWritten kvs (desktopEntry cli tok))
            (desktopEntry cli tok)))) ∧
    getKey (mcpEntries (desktopWritten kvs (desktopEntry cli tok)))
        "notion-mcp" = some (desktopEntry cli tok) ∧
    getKey (mcpEntries (desktopWritten
        (desktopWritten kvs (desktopEntry cli tok))
        (desktopEntry cli tok))) "notion-mcp"
      = getKey (mcpEntries (desktopWritten kvs (desktopEntry cli tok)))
          "notion-mcp" ∧
    (configureClaudeDesktop (configureClaudeDesktop fs p t1 cli tok
        true).fs p t2 cli tok true).fs (p ++ ".backup." ++ toString t1)
      = fs p ∧
    (configureClaudeDesktop (configureClaudeDesktop fs p t1 cli tok
        true).fs p t2 cli tok true).fs (p ++ ".backup." ++ toString t2)
      = (configureClaudeDesktop fs p t1 cli tok true).fs p := by
  have h1 := desktop_run_obj fs p t1 cli tok kvs h
  have hr1p : (configureClaudeDesktop fs p t1 cli tok true).fs p
      = some (Content.parsed (Json.obj
          (desktopWritten kvs (desktopEntry cli tok)))) := by
    rw [h1]; exact writeStr_self _ _ _
  have hv1 := written_valid kvs (desktopEntry cli tok) hv
  have h2 := desktop_run_obj (configureClaudeDesktop fs p t1 cli tok
    true).fs p t2 cli tok (desktopWritten kvs (desktopEntry cli tok)) hr1p
  have hb1 := backupPath_ne_configPath p t1
  have hb2 := backupPath_ne_configPath p t2
  have hbb := backupPath_injective p (toString t1) (toString t2) hne
  refine ⟨hr1p, ?_, ?_, ?_, ?_, ?_⟩
  · rw [h2]; exact writeStr_self _ _ _
  · rw [mcpEntries_written kvs _ hv]; exact getKey_setKey_self _ _ _
  · rw [mcpEntries_written kvs _ hv,
      mcpEntries_written (desktopWritten kvs (desktopEntry cli tok)) _ hv1,
      getKey_setKey_self, getKey_setKey_self]
  · rw [h2]
    show writeStr _ p _ _ = _
    rw [writeStr_ne _ _ _ _ hb1, writeStr_ne _ _ _ _ hbb, h1]
    show writeStr _ p _ _ = _
    rw [writeStr_ne _ _ _ _ hb1, writeStr_self, h]
  · rw [h2]
    show writeStr _ p _ _ = _
    rw [writeStr_ne _ _ _ _ hb2, writeStr_self, hr1p]

/-- Witness for C4 at the concrete document `exampleDoc`, with timestamps
1 and 2. -/
theorem C4_twice_idempotent_two_backups_witness :
    exampleFS "/cfg" = some (Content.parsed (Json.obj exampleDoc)) ∧
    validMcpVal (getKey exampleDoc "mcpServers") = true ∧
    toString 1 ≠ toString 2 ∧
    getKey (mcpEntries (desktopWritten exampleDoc
        (desktopEntry "/cli.mjs" none))) "notion-mcp"
      = some (desktopEntry "/cli.mjs" none) ∧
    getKey (mcpEntries (desktopWritten
        (desktopWritten exampleDoc (desktopEntry "/cli.mjs" none))
        (desktopEntry "/cli.mjs" none))) "notion-mcp"
      = getKey (mcpEntries (desktopWritten exampleDoc
          (desktopEntry "/cli.mjs" none))) "notion-mcp" ∧
    (configureClaudeDesktop (configureClaudeDesktop exampleFS "/cfg" 1
        "/cli.mjs" none true).fs "/cfg" 2 "/cli.mjs" none true).fs
        ("/cfg" ++ ".backup." ++ toString 1)
      = exampleFS "/cfg" ∧
    (configureClaudeDesktop (configureClaudeDesktop exampleFS "/cfg" 1
        "/cli.mjs" none true).fs "/cfg" 2 "/cli.mjs" none true).fs
        ("/cfg" ++ ".backup." ++ toString 2)
      = (configureClaudeDesktop exampleFS "/cfg" 1 "/cli.mjs" none
          true).fs "/cfg" := by
  have T := C4_twice_idempotent_two_backups exampleFS "/cfg" 1 2 "/cli.mjs"
    none exampleDoc rfl rfl (by decide)
  exact ⟨rfl, rfl, by decide, T.2.2.1, T.2.2.2.1, T.2.2.2.2.1, T.2.2.2.2.2⟩

/-- C9 (claim): when the existing file parses to an object but the backup
copy throws, the catch path discards the parsed document: the parse
warning fires, no fault escapes, the file is rewritten with only the
`notion-mcp` entry, no other path is touched, and every unrelated
top-level key the original document had is absent from the written
document. -/
theorem C9_copy_failure_discards_document (fs : FS) (configPath : String)
    (now : Nat) (cliBinaryPath : String) (notionToken : Option String)
    (kvs : List (String × Json))
    (h : fs configPath = some (Content.parsed (Json.obj kvs))) :
    (configureClaudeDesktop fs configPath now cliBinaryPath notionToken
        false).warnedParse = true ∧
    (configureClaudeDesktop fs configPath now cliBinaryPath notionToken
        false).fatal = false ∧
    (configureClaudeDesktop fs configPath now cliBinaryPath notionToken
        false).fs configPath
      = some (Content.parsed (Json.obj
          [("mcpServers", Json.obj
            [("notion-mcp", desktopEntry cliBinaryPath notionToken)])])) ∧
    (∀ q, q ≠ configPath →
      (configureClaudeDesktop fs configPath now cliBinaryPath notionToken
          false).fs q = fs q) ∧
    (∀ k v, k ≠ "mcpServers" → getKey kvs k = some v →
      getKey [("mcpServers", Json.obj
        [("notion-mcp", desktopEntry cliBinaryPath notionToken)])] k
        = none) := by
  rw [desktop_run_obj_nocopy fs configPath now cliBinaryPath notionToken
    kvs h]
  refine ⟨rfl, rfl, ?_, ?_, ?_⟩
  · rw [freshDoc_eq]
    exact writeStr_self _ _ _
  · intro q hq
    exact writeStr_ne _ _ _ _ hq
  · intro k v hk _
    simp [getKey, Ne.symm hk]

/-- Witness for C9 at the concrete document `exampleDoc`: the `theme` key
present before the call is gone from the written document. -/
theorem C9_copy_failure_discards_document_witness :
    exampleFS "/cfg" = some (Content.parsed (Json.obj exampleDoc)) ∧
    (configureClaudeDesktop exampleFS "/cfg" 3 "/cli.mjs" none
        false).warnedParse = true ∧
    (configureClaudeDesktop exampleFS "/cfg" 3 "/cli.mjs" none
        false).fs "/cfg"
      = some (Content.parsed (Json.obj
          [("mcpServers", Json.obj
            [("notion-mcp", desktopEntry "/cli.mjs" none)])])) ∧
    getKey exampleDoc "theme" = some (Json.str "dark") ∧
    getKey [("mcpServers", Json.obj
        [("notion-mcp", desktopEntry "/cli.mjs" none)])] "theme" = none := by
  have T := C9_copy_failure_discards_document exampleFS "/cfg" 3 "/cli.mjs"
    none exampleDoc rfl
  exact ⟨rfl, T.1, T.2.2.1, rfl,
    T.2.2.2.2 "theme" (Json.str "dark") (by decide) rfl⟩

/-- Model of `String.prototype.trim()`, applied to the raw `execSync`
output at lines 83 and 97 (and the verifier's lines): strip whitespace
from both ends. -/
def jsTrim (s : String) : String :=
  String.mk
    (((s.toList.dropWhile Char.isWhitespace).reverse.dropWhile
        Char.isWhitespace).reverse)

/-- Model of `nodeVersion.replace('v', '')` with a string pattern: remove
the first occurrence of the character `v`, if any. -/
def removeFirstV : List Char → List Char
  | [] => []
  | c :: rest => if c = 'v' then rest else c :: removeFirstV rest

/-- Model of `.split('.')[0]`: the prefix of the string before the first
dot (the whole string when no dot occurs; element 0 of a split always
exists). -/
def headBeforeDot (xs : List Char) : List Char :=
  xs.takeWhile (fun c => c ≠ '.')

/-- Model of the `parseInt` builtin on the domain this program feeds it —
version strings whose significant part starts with a decimal digit: read
the leading digit run, `NaN` (`none`) when there is none.  The sign, hex
and whitespace handling of `parseInt` is outside the shapes `node
--version` and `npm --version` produce. -/
def jsParseIntNat (xs : List Char) : Option Nat :=
  let ds := xs.takeWhile Char.isDigit
  if ds.isEmpty then none
  else some (ds.foldl (fun n c => 10 * n + (c.toNat - 48)) 0)

/-- Line 87 of `install.cjs` (and line 401 of the verifier):
`parseInt(nodeVersion.replace('v', '').split('.')[0])`. -/
def majorVersion (v : String) : Option Nat :=
  jsParseIntNat (headBeforeDot (removeFirstV v.toList))

/-- Line 88, `versionNum < 16`: a JavaScript comparison in which `NaN`
compares `false`, so an unparseable major version passes the check. -/
def nodeVersionTooOld (v : String) : Bool :=
  match majorVersion v with
  | some m => decide (m < 16)
  | none => false

/-- `NotionMcpInstaller.checkSystemDependencies` (`install.cjs` lines
78-104).  `nodeOut` and `npmOut` are the outcomes of the two `execSync`
version queries (`none` models command-not-found, i.e. the call throwing).
Returns the log messages emitted and, since `this.error` calls
`process.exit(1)`, the message of the fatal error when one occurs (later
checks do not run after an exit). -/
def installerCheckSystemDependencies (nodeOut npmOut : Option String) :
    List String × Option String :=
  match nodeOut with
  | none => (["Checking system dependencies..."],
      some "Node.js is not installed or not in PATH")
  | some out =>
      let v := jsTrim out
      let logs := ["Checking system dependencies...",
        "Node.js version: " ++ v ++ " ✓"]
      if nodeVersionTooOld v then
        (logs, some "Node.js version 16 or higher is required")
      else
        match npmOut with
        | none => (logs, some "npm is not installed or not in PATH")
        | some nout =>
            (logs ++ ["npm version: " ++ jsTrim nout ++ " ✓",
              "System dependencies check completed"], none)

/-- Result of a verifier check: messages logged, and the error and
warning messages accumulated into `this.errors` / `this.warnings`. -/
structure VerifierCheckResult where
  logs : List String
  errors : List String
  warnings : List String

/-- `NotionMcpVerifier.checkSystemDependencies` (verifier lines 393-416):
the same two checks, but `error` pushes the message and continues, so the
npm check runs regardless of the node outcome, and nothing is ever pushed
to `warnings` here. -/
def verifierCheckSystemDependencies (nodeOut npmOut : Option String) :
    VerifierCheckResult :=
  let nodePart :=
    match nodeOut with
    | none => (([] : List String), ["Node.js is not installed or not in PATH"])
    | some out =>
        let v := jsTrim out
        (["Node.js version: " ++ v],
         if nodeVersionTooOld v then
           ["Node.js version 16 or higher is required"]
         else [])
  let npmPart :=
    match npmOut with
    | none => (([] : List String), ["npm is not installed or not in PATH"])
    | some nout => (["npm version: " ++ jsTrim nout], ([] : List String))
  ⟨"Checking system dependencies..." :: (nodePart.1 ++ npmPart.1),
    nodePart.2 ++ npmPart.2, []⟩

/-- C5 (claim): for every runtime version string whose leading major
version is below 16, the dependency check of the installer exits fatally
with the minimum-version message and the verifier accumulates that same
message as an error (never a warning), while both still log the detected
version string verbatim; and absence of the runtime or of the package
manager (command not found) is a hard failure in both scripts — the
installer exits fatally, the verifier accumulates an error — with a
message distinct from the present-but-too-old message.  `out2` is any
runtime version output passing the minimum (so that the installer reaches
its npm check, which a fatal node check would preclude). -/
theorem C5_dependency_check_rules (out out2 : String)
    (npmOut : Option String) (m m2 : Nat)
    (hm : majorVersion (jsTrim out) = some m) (hlt : m < 16)
    (hm2 : majorVersion (jsTrim out2) = some m2) (h16 : ¬ m2 < 16) :
    (installerCheckSystemDependencies (some out) npmOut).2
      = some "Node.js version 16 or higher is required" ∧
    ("Node.js version: " ++ jsTrim out ++ " ✓")
      ∈ (installerCheckSystemDependencies (some out) npmOut).1 ∧
    "Node.js version 16 or higher is required"
      ∈ (verifierCheckSystemDependencies (some out) npmOut).errors ∧
    (verifierCheckSystemDependencies (some out) npmOut).warnings = [] ∧
    ("Node.js version: " ++ jsTrim out)
      ∈ (verifierCheckSystemDependencies (some out) npmOut).logs ∧
    (installerCheckSystemDependencies none npmOut).2
      = some "Node.js is not installed or not in PATH" ∧
    "Node.js is not installed or not in PATH"
      ∈ (verifierCheckSystemDependencies none npmOut).errors ∧
    (installerCheckSystemDependencies (some out2) none).2
      = some "npm is not installed or not in PATH" ∧
    "npm is not installed or not in PATH"
      ∈ (verifierCheckSystemDependencies (some out) none).errors ∧
    (verifierCheckSystemDependencies (some out) none).warnings = [] ∧
    ("Node.js is not installed or not in PATH" : String)
      ≠ "Node.js version 16 or higher is required" ∧
    ("npm is not installed or not in PATH" : String)
      ≠ "Node.js version 16 or higher is required" := by
  have htoo : nodeVersionTooOld (jsTrim out) = true := by
    simp [nodeVersionTooOld, hm, hlt]
  have hok : nodeVersionTooOld (jsTrim out2) = false := by
    simp [nodeVersionTooOld, hm2, h16]
  refine ⟨?_, ?_, ?_, ?_, ?_, rfl, ?_, ?_, ?_, ?_, by decide, by decide⟩
  · simp [installerCheckSystemDependencies, htoo]
  · simp [installerCheckSystemDependencies, htoo]
  · cases npmOut <;> simp [verifierCheckSystemDependencies, htoo]
  · cases npmOut <;> simp [verifierCheckSystemDependencies, htoo]
  · cases npmOut <;> simp [verifierCheckSystemDependencies, htoo]
  · cases npmOut <;> simp [verifierCheckSystemDependencies]
  · simp [installerCheckSystemDependencies, hok]
  · simp [verifierCheckSystemDependencies, htoo]
  · simp [verifierCheckSystemDependencies, htoo]

/-- Witness for C5 at the concrete version strings `v14.17.0` (too old)
and `v18.12.1` (passing, so the installer reaches the npm check). -/
theorem C5_dependency_check_rules_witness :
    majorVersion (jsTrim "v14.17.0") = some 14 ∧ 14 < 16 ∧
    majorVersion (jsTrim "v18.12.1") = some 18 ∧ ¬ 18 < 16 ∧
    (installerCheckSystemDependencies (some "v14.17.0")
        (some "8.19.2")).2
      = some "Node.js version 16 or higher is required" ∧
    ("Node.js version: " ++ jsTrim "v14.17.0" ++ " ✓")
      ∈ (installerCheckSystemDependencies (some "v14.17.0")
          (some "8.19.2")).1 ∧
    "Node.js version 16 or higher is required"
      ∈ (verifierCheckSystemDependencies (some "v14.17.0")
          (some "8.19.2")).errors ∧
    (verifierCheckSystemDependencies (some "v14.17.0")
        (some "8.19.2")).warnings = [] ∧
    (installerCheckSystemDependencies none (some "8.19.2")).2
      = some "Node.js is not installed or not in PATH" ∧
    "Node.js is not installed or not in PATH"
      ∈ (verifierCheckSystemDependencies none (some "8.19.2")).errors ∧
    (installerCheckSystemDependencies (some "v18.12.1") none).2
      = some "npm is not installed or not in PATH" ∧
    "npm is not installed or not in PATH"
      ∈ (verifierCheckSystemDependencies (some "v14.17.0") none).errors := by
  have T := C5_dependency_check_rules "v14.17.0" "v18.12.1"
    (some "8.19.2") 14 18 (by decide) (by decide) (by decide) (by decide)
  exact ⟨by decide, by decide, by decide, by decide, T.1, T.2.1, T.2.2.1,
    T.2.2.2.1, T.2.2.2.2.2.1, T.2.2.2.2.2.2.1, T.2.2.2.2.2.2.2.1,
    T.2.2.2.2.2.2.2.2.1⟩

/-- Model of a prefix test on character lists, for
`String.prototype.includes`: does `sub` occur at the front of the first
list. -/
def charsBeginWith : List Char → List Char → Bool
  | _, [] => true
  | [], _ :: _ => false
  | c :: cs, d :: ds => c = d && charsBeginWith cs ds

/-- Occurrence of `sub` anywhere in the first list. -/
def charsContain : List Char → List Char → Bool
  | [], sub => charsBeginWith [] sub
  | c :: rest, sub => charsBeginWith (c :: rest) sub || charsContain rest sub

/-- Model of `s.includes(sub)` (line 256 of `install.cjs`). -/
def jsIncludes (s sub : String) : Bool :=
  charsContain s.toList sub.toList

/-- The manual-remediation command logged at line 261 of `install.cjs`. -/
def manualAddCommand (cliBinaryPath : String) : String :=
  "You may need to manually run: claude mcp add notion-mcp node \""
    ++ cliBinaryPath ++ "\" -s user"

/-- Result of `configureClaudeCodeCLI`: the messages logged and whether an
exception escaped the method (none can: the whole body is wrapped in
try/catch and the catch never rethrows). -/
structure CliConfigResult where
  logs : List String
  fatal : Bool

/-- `NotionMcpInstaller.configureClaudeCodeCLI` (`install.cjs` lines
220-264).  `removeOk` is the outcome of the `claude mcp remove`
subprocess, whose failure is swallowed by the inner catch at line 234.
`addError` is `none` when the `claude mcp add` subprocess succeeds and
`some msg` when it throws with message `msg`; the outer catch then treats
a message containing `already exists` as success and otherwise logs a
warning plus the manual command.  No path is fatal. -/
def configureClaudeCodeCLI (removeOk : Bool) (addError : Option String)
    (cliBinaryPath : String) : CliConfigResult :=
  let removeLog :=
    if removeOk then "Removed existing MCP server configuration"
    else "No existing MCP server found (expected for fresh installation)"
  let startLogs := ["Configuring Claude Code CLI...",
    "Checking for existing Claude Code CLI MCP server...", removeLog,
    "Adding Notion MCP server to Claude Code CLI with user scope..."]
  match addError with
  | none => ⟨startLogs ++ ["Claude Code CLI configuration completed"], false⟩
  | some msg =>
      if jsIncludes msg "already exists" then
        ⟨startLogs ++ ["Claude Code CLI MCP server already configured"],
          false⟩
      else
        ⟨startLogs ++ ["Warning: Failed to configure Claude Code CLI: "
            ++ msg, manualAddCommand cliBinaryPath], false⟩

/-- C6 (amended): a failure of the remove subprocess is swallowed (the
add step runs and the method completes for either remove outcome, never
fatally), and a failure of the add subprocess whose message does not
contain `already exists` is reported with a warning and the manual
command, without being fatal; an add failure whose message does contain
`already exists` is instead treated as success. -/
theorem C6_cli_adapter_error_handling (removeOk : Bool)
    (msg cliBinaryPath : String)
    (hne : jsIncludes msg "already exists" = false) :
    (configureClaudeCodeCLI removeOk (some msg) cliBinaryPath).fatal
      = false ∧
    manualAddCommand cliBinaryPath
      ∈ (configureClaudeCodeCLI removeOk (some msg) cliBinaryPath).logs ∧
    ("Warning: Failed to configure Claude Code CLI: " ++ msg)
      ∈ (configureClaudeCodeCLI removeOk (some msg) cliBinaryPath).logs ∧
    (configureClaudeCodeCLI removeOk none cliBinaryPath).fatal = false ∧
    "Claude Code CLI configuration completed"
      ∈ (configureClaudeCodeCLI removeOk none cliBinaryPath).logs := by
  refine ⟨?_, ?_, ?_, ?_, ?_⟩ <;>
    simp [configureClaudeCodeCLI, hne]

/-- Witness for C6 at a concrete add-failure message not containing
`already exists`, with the remove subprocess also failing. -/
theorem C6_cli_adapter_error_handling_witness :
    jsIncludes "spawn claude ENOENT" "already exists" = false ∧
    (configureClaudeCodeCLI false (some "spawn claude ENOENT")
        "/cli.mjs").fatal = false ∧
    manualAddCommand "/cli.mjs"
      ∈ (configureClaudeCodeCLI false (some "spawn claude ENOENT")
          "/cli.mjs").logs ∧
    ("Warning: Failed to configure Claude Code CLI: "
        ++ "spawn claude ENOENT")
      ∈ (configureClaudeCodeCLI false (some "spawn claude ENOENT")
          "/cli.mjs").logs := by
  have T := C6_cli_adapter_error_handling false "spawn claude ENOENT"
    "/cli.mjs" (by decide)
  exact ⟨by decide, T.1, T.2.1, T.2.2.1⟩

/-- C6 (counterexample): an add-subprocess failure whose message contains
`already exists` is a failure of the add subprocess, yet the installer
neither reports it as a failure nor prints the manual command — it logs
the already-configured success message instead.  This refutes the claim
that every add failure is reported together with the manual command. -/
theorem C6_counterexample_already_exists :
    jsIncludes "MCP server notion-mcp already exists in user config"
        "already exists" = true ∧
    (configureClaudeCodeCLI true
        (some "MCP server notion-mcp already exists in user config")
        "/cli.mjs").fatal = false ∧
    manualAddCommand "/cli.mjs"
      ∉ (configureClaudeCodeCLI true
          (some "MCP server notion-mcp already exists in user config")
          "/cli.mjs").logs ∧
    ("Warning: Failed to configure Claude Code CLI: "
        ++ "MCP server notion-mcp already exists in user config")
      ∉ (configureClaudeCodeCLI true
          (some "MCP server notion-mcp already exists in user config")
          "/cli.mjs").logs ∧
    "Claude Code CLI MCP server already configured"
      ∈ (configureClaudeCodeCLI true
          (some "MCP server notion-mcp already exists in user config")
          "/cli.mjs").logs := by
  decide

/-- One `execSync` call site: the command run, and the `timeout` option
its options object passes (in milliseconds), `none` when the call site
passes no `timeout`. -/
structure SubprocessCall where
  cmd : String
  timeoutMs : Option Nat
deriving DecidableEq

/-- The seven `execSync` call sites of `install.cjs`, in program order,
with the `timeout` option each passes: lines 83 (`node --version`), 97
(`npm --version`), 112 (`npm install`), 120 (`npm run build`), 143 (the
CLI smoke test, `timeout: 15000`), 229 (`claude mcp remove`), 249
(`claude mcp add`).  `<cliBinary>` stands for the quoted absolute path of
`bin/cli.mjs`. -/
def installerSubprocessCalls : List SubprocessCall :=
  [⟨"node --version", none⟩,
   ⟨"npm --version", none⟩,
   ⟨"npm install", none⟩,
   ⟨"npm run build", none⟩,
   ⟨"node <cliBinary> --help", some 15000⟩,
   ⟨"claude mcp remove notion-mcp -s user", none⟩,
   ⟨"claude mcp add notion-mcp node <cliBinary> -s user", none⟩]

/-- The five `execSync` call sites of the verifier, in program order:
`node --version`, `npm --version`, the CLI smoke test (`timeout: 10000`),
`claude --version`, and `claude mcp list` (`timeout: 30000`). -/
def verifierSubprocessCalls : List SubprocessCall :=
  [⟨"node --version", none⟩,
   ⟨"npm --version", none⟩,
   ⟨"node <cliBinary> --help", some 10000⟩,
   ⟨"claude --version", none⟩,
   ⟨"claude mcp list", some 30000⟩]

/-- C7 (counterexample): the claim says every external process invocation
of the installer and the verifier carries a caller-supplied bounded
timeout.  The very first installer invocation, `node --version`, passes
no timeout, so the claim fails. -/
theorem C7_counterexample_no_timeout :
    (⟨"node --version", none⟩ : SubprocessCall) ∈ installerSubprocessCalls ∧
    ¬ (∀ c ∈ installerSubprocessCalls ++ verifierSubprocessCalls,
        c.timeoutMs.isSome = true) := by
  decide

/-- C7 (amended): exactly three of the twelve subprocess invocations
carry a caller-supplied timeout — the CLI smoke test in each script (15 s
install, 10 s verify) and the CLI registry list query (30 s) — and every
timeout that is supplied is bounded by 30 s; the remaining nine
invocations pass no timeout. -/
theorem C7_timeouts_only_on_three_calls :
    ((installerSubprocessCalls ++ verifierSubprocessCalls).filter
        (fun c => c.timeoutMs.isSome)).map SubprocessCall.cmd
      = ["node <cliBinary> --help", "node <cliBinary> --help",
         "claude mcp list"] ∧
    ((installerSubprocessCalls ++ verifierSubprocessCalls).filter
        (fun c => c.timeoutMs.isSome)).map SubprocessCall.timeoutMs
      = [some 15000, some 10000, some 30000] ∧
    (((installerSubprocessCalls ++ verifierSubprocessCalls).filter
        (fun c => c.timeoutMs = none)).length = 9) ∧
    (∀ c ∈ installerSubprocessCalls ++ verifierSubprocessCalls,
      c.timeoutMs.getD 0 ≤ 30000) := by
  decide

/-- The outcome of one step of `install()` (lines 266-302): either the
step completed, or it called `this.error(msg)` with default `exit`, which
runs `process.exit(1)` so no later step runs. -/
inductive StepOutcome where
  | ok
  | fatal (msg : String)

/-- The process exit code of the installer driven through its sequence of
step outcomes: the first fatal step exits with code 1; if every step
completes the script falls through and exits 0. -/
def installExitCode : List StepOutcome → Nat
  | [] => 0
  | StepOutcome.ok :: rest => installExitCode rest
  | StepOutcome.fatal _ :: _ => 1

/-- The dependency-check step of `install()` as a step outcome, wired to
`installerCheckSystemDependencies`. -/
def installDepsOutcome (nodeOut npmOut : Option String) : StepOutcome :=
  match (installerCheckSystemDependencies nodeOut npmOut).2 with
  | some m => StepOutcome.fatal m
  | none => StepOutcome.ok

/-- The exit code of the verifier's summary block (verifier lines
593-619): both lists empty logs success and falls through with 0;
otherwise `process.exit(1)` runs exactly when at least one error was
accumulated, and accumulated warnings alone fall through with 0. -/
def verifierExitCode (errors warnings : List String) : Nat :=
  if errors.length = 0 ∧ warnings.length = 0 then 0
  else if 0 < errors.length then 1
  else 0

/-- C8 (claim): the installer exits 0 exactly when no step was fatal and
non-zero whenever some fatal step occurred (for instance a missing
runtime); the verifier exits non-zero exactly when at least one hard
error was accumulated, and accumulated warnings alone never cause a
non-zero exit. -/
theorem C8_exit_codes (steps : List StepOutcome)
    (errors warnings : List String) (npmOut : Option String)
    (rest : List StepOutcome) :
    (installExitCode steps = 0 ↔ ∀ s ∈ steps, s = StepOutcome.ok) ∧
    (verifierExitCode errors warnings = 0 ↔ errors = []) ∧
    installExitCode (installDepsOutcome none npmOut :: rest) = 1 ∧
    verifierExitCode [] warnings = 0 := by
  refine ⟨?_, ?_, rfl, ?_⟩
  · induction steps with
    | nil => simp [installExitCode]
    | cons s rest ih =>
        cases s with
        | ok => simpa [installExitCode] using ih
        | fatal m => simp [installExitCode]
  · by_cases he : errors = []
    · subst he
      by_cases hw : warnings.length = 0 <;> simp [verifierExitCode, hw]
    · have hl : errors.length ≠ 0 := by
        simpa [List.length_eq_zero] using he
      simp [verifierExitCode, hl, Nat.pos_of_ne_zero hl, he]
  · by_cases hw : warnings.length = 0 <;> simp [verifierExitCode, hw]

/-- The result of `NotionMcpInstaller.loadConfig` (`install.cjs` lines
55-76): either the fatal `this.error` path, which exits the process with
code 1, or a loaded configuration value. -/
inductive LoadConfigResult where
  | fatalExit
  | loaded (config : Json)

/-- The default configuration created at lines 70-73 when no
configuration file exists. -/
def defaultInstallConfig : Json :=
  Json.obj [("notionToken", Json.str ""), ("verbose", Json.bool false)]

/-- `NotionMcpInstaller.loadConfig`, as a function of the content of the
resolved configuration file path: absent file means defaults; a file
whose content `JSON.parse` rejects means `this.error(...)`, hence
`process.exit(1)`; a parseable file is loaded as-is. -/
def loadConfig : Option Content → LoadConfigResult
  | none => LoadConfigResult.loaded defaultInstallConfig
  | some (Content.invalid _) => LoadConfigResult.fatalExit
  | some (Content.parsed j) => LoadConfigResult.loaded j

/-- C10 (claim): a present-but-malformed install-configuration file makes
`loadConfig` terminate the process fatally rather than fall back to
defaults, and the default configuration (empty token, verbose off) is
applied exactly on the absent-file path, while a parseable file is loaded
as-is. -/
theorem C10_loadConfig_fatal_on_malformed (raw : String) (j : Json) :
    loadConfig (some (Content.invalid raw)) = LoadConfigResult.fatalExit ∧
    loadConfig none = LoadConfigResult.loaded defaultInstallConfig ∧
    loadConfig (some (Content.parsed j)) = LoadConfigResult.loaded j :=
  ⟨rfl, rfl, rfl⟩

end NotionMcp
